import Mathlib

/-!
Verification development for the `sivchari/e2e` repository, a fluent-API
end-to-end testing helper for Go wrapping HTTP, gRPC and GraphQL clients.

The Go source is shallowly embedded:
* `t.Fatal` / `t.Fatalf` (fail-fast assertion failure) is modelled by the
  `TestResult` type: an assertion either returns the builder (`ok`) or halts
  the test with a message (`fatal`).
* Go `interface{}` values that can be marshaled to JSON are modelled by the
  `GoVal` tree; JSON documents (the wire text) are modelled by their syntax
  tree `Jsyn`, with ordered object fields.  The textual parsing itself is
  delegated in the source to the external package `encoding/json` and is
  therefore not re-modelled: a JSON text is represented by the tree that
  `encoding/json` parses it to.  JSON numeric literals are represented by
  their numeric value (a rational), since `json.Unmarshal` decodes every
  numeric literal into its `float64` value; the concrete numbers appearing
  in this development are small integers, on which `float64` is exact.
* Go byte strings (`[]byte`, `string`) are modelled by Lean `String`, one
  byte per character (exact for the ASCII data handled here).
* Go durations (`time.Duration`, an int64 of nanoseconds) are modelled by
  `Int`.
-/

namespace E2E

/-- Outcome of one chained builder step under the Go testing context:
either the step passes and hands back the (possibly updated) builder, or it
calls `t.Fatal`/`t.Fatalf` with a message, halting the test. -/
inductive TestResult (α : Type) where
  | ok (val : α)
  | fatal (msg : String)
deriving Repr

/-- A `TestResult` that passed (the test keeps running). -/
def TestResult.isOk {α : Type} : TestResult α → Bool
  | .ok _ => true
  | .fatal _ => false

/-- `pat` occurs as a contiguous substring of `s`. -/
def ContainsSub (s pat : String) : Prop := ∃ x y : String, s = x ++ (pat ++ y)

/-- `time.Second` from the Go standard library, in nanoseconds. -/
def goSecond : Int := 1000000000

/-! ## Byte-wise string order

Go compares strings byte by byte (`sort.Strings`, used by `encoding/json`
when serializing map keys).  UTF-8 byte order coincides with code-point
order, so the comparison is modelled character-wise on code points.  The
standard `String` order of the core library is not used because its
`Decidable` instance does not reduce in the kernel. -/

/-- Lexicographic strict order on character lists, by code point. -/
def charsLtB : List Char → List Char → Bool
  | [], [] => false
  | [], _ :: _ => true
  | _ :: _, [] => false
  | c :: cs, d :: ds =>
    c.toNat < d.toNat || (c.toNat == d.toNat && charsLtB cs ds)

/-- Byte-wise strict order on strings, as Go `<` on strings. -/
def strLtB (a b : String) : Bool := charsLtB a.data b.data

/-! ## JSON documents and Go values -/

/-- Syntax tree of a JSON document as written on the wire: object fields
keep their textual order, numeric literals are represented by their value
(see the module comment). -/
inductive Jsyn where
  | null
  | bool (b : Bool)
  | num (q : Rat)
  | str (s : String)
  | arr (xs : List Jsyn)
  | obj (fields : List (String × Jsyn))
deriving Repr

/-- A Go value handed to or produced by the JSON layer: `interface{}`
holding `nil`, `bool`, `int`, `float64`, `string`, `[]any` or
`map[string]any`.  Caller-supplied expected values may hold `int`; values
decoded by `json.Unmarshal` hold `float64` for every number.  A
`map[string]any` has no observable field order; it is represented
canonically with fields sorted by key (the order `encoding/json` uses when
serializing it). -/
inductive GoVal where
  | null
  | bool (b : Bool)
  | int (n : Int)
  | float (q : Rat)
  | str (s : String)
  | arr (xs : List GoVal)
  | obj (fields : List (String × GoVal))
deriving Repr

mutual

/-- Go `==`/`!=` on two `interface{}` values (used by
`GraphQLBuilder.ExpectDataPath`): the dynamic types and the values must
both match, so `int(42) != float64(42)`.  (Go panics when both dynamic
types are identical and uncomparable; that case is not exercised by the
claims and is modelled as structural comparison.) -/
def GoVal.beq : GoVal → GoVal → Bool
  | .null, .null => true
  | .bool a, .bool b => a == b
  | .int a, .int b => a == b
  | .float a, .float b => a == b
  | .str a, .str b => a == b
  | .arr xs, .arr ys => beqValList xs ys
  | .obj fs, .obj gs => beqValFields fs gs
  | _, _ => false

/-- Element-wise `GoVal.beq` on slices. -/
def beqValList : List GoVal → List GoVal → Bool
  | [], [] => true
  | x :: xs, y :: ys => GoVal.beq x y && beqValList xs ys
  | _, _ => false

/-- Field-wise `GoVal.beq` on maps (in canonical field order). -/
def beqValFields : List (String × GoVal) → List (String × GoVal) → Bool
  | [], [] => true
  | (k1, v1) :: xs, (k2, v2) :: ys => k1 == k2 && GoVal.beq v1 v2 && beqValFields xs ys
  | _, _ => false

end

/-- Insert a field into a key-sorted association list, replacing an
existing binding of the same key (the effect of `m[k] = v` on a Go map,
viewed through its canonical sorted listing). -/
def insertField (k : String) (v : GoVal) : List (String × GoVal) → List (String × GoVal)
  | [] => [(k, v)]
  | (k2, v2) :: rest =>
    if strLtB k k2 then (k, v) :: (k2, v2) :: rest
    else if k = k2 then (k, v) :: rest
    else (k2, v2) :: insertField k v rest

/-- Canonical listing of the Go map built from a field list: fields are
inserted in order (a later duplicate key overwrites an earlier one, as in
`json.Unmarshal`), and the result is sorted by key (the order in which
`encoding/json` serializes a map). -/
def canonFields (fs : List (String × GoVal)) : List (String × GoVal) :=
  fs.foldl (fun acc p => insertField p.1 p.2 acc) []

mutual

/-- `json.Unmarshal` of a document into `interface{}`: numbers become
`float64`, arrays become `[]any`, objects become `map[string]any`
(represented canonically, duplicate keys last-wins). -/
def unmarshal : Jsyn → GoVal
  | .null => .null
  | .bool b => .bool b
  | .num q => .float q
  | .str s => .str s
  | .arr xs => .arr (unmarshalList xs)
  | .obj fs => .obj (canonFields (unmarshalFields fs))

/-- `unmarshal` on each element of an array. -/
def unmarshalList : List Jsyn → List GoVal
  | [] => []
  | x :: xs => unmarshal x :: unmarshalList xs

/-- `unmarshal` on each value of an object field list, keeping order. -/
def unmarshalFields : List (String × Jsyn) → List (String × GoVal)
  | [] => []
  | (k, v) :: fs => (k, unmarshal v) :: unmarshalFields fs

end

/-- Rendering of a Go number in JSON output.  Go prints a `float64` in its
shortest decimal form, so an integral value carries no fractional part and
`float64(42)` serializes exactly as the integer `42` does.  Non-integral
values are rendered here in an injective fraction form standing in for the
shortest-decimal text; only equality of rendered numbers matters to the
source (`jsonEqual` compares serialized bytes), and the rendering is
injective exactly as the shortest-decimal form is. -/
def numRepr (q : Rat) : String :=
  if q.den = 1 then toString q.num
  else toString q.num ++ "/" ++ toString q.den

mutual

/-- `json.Marshal` of a Go value: `int` and integral `float64` values
render identically, and the fields of a `GoVal.obj` — by the representation
convention of `GoVal`, the canonical key-sorted listing of the Go map — are
serialized in exactly that order, which is the sorted-key order
`encoding/json` uses for a `map[string]any`.  String escaping is delegated
to `encoding/json` and not re-modelled (the strings handled here need no
escapes). -/
def marshal : GoVal → String
  | .null => "null"
  | .bool b => if b then "true" else "false"
  | .int n => toString n
  | .float q => numRepr q
  | .str s => "\"" ++ s ++ "\""
  | .arr xs => "[" ++ marshalList xs ++ "]"
  | .obj fs => "\x7b" ++ marshalFields fs ++ "\x7d"

/-- Comma-separated serialization of array elements. -/
def marshalList : List GoVal → String
  | [] => ""
  | [x] => marshal x
  | x :: y :: xs => marshal x ++ "," ++ marshalList (y :: xs)

/-- Comma-separated serialization of object fields. -/
def marshalFields : List (String × GoVal) → String
  | [] => ""
  | [(k, v)] => "\"" ++ k ++ "\":" ++ marshal v
  | (k, v) :: f :: fs => "\"" ++ k ++ "\":" ++ marshal v ++ "," ++ marshalFields (f :: fs)

end

/-- `jsonEqual` from `e2e.go`: marshal both values and compare the
serialized bytes. -/
def jsonEqual (a b : GoVal) : Bool := marshal a == marshal b

mutual

/-- The composite `json.Unmarshal(json.Marshal(v))` used by
`HTTPBuilder.ExpectJSON` and `GraphQLBuilder.ExpectData` to normalize a
caller-supplied expected value: every `int` becomes a `float64`, and maps
are rebuilt (canonical order, duplicates last-wins). -/
def normalizeGo : GoVal → GoVal
  | .null => .null
  | .bool b => .bool b
  | .int n => .float n
  | .float q => .float q
  | .str s => .str s
  | .arr xs => .arr (normalizeList xs)
  | .obj fs => .obj (canonFields (normalizeFields fs))

/-- `normalizeGo` on each element of an array. -/
def normalizeList : List GoVal → List GoVal
  | [] => []
  | x :: xs => normalizeGo x :: normalizeList xs

/-- `normalizeGo` on each value of a field list. -/
def normalizeFields : List (String × GoVal) → List (String × GoVal)
  | [] => []
  | (k, v) :: fs => (k, normalizeGo v) :: normalizeFields fs

end

/-- The `expected interface{}` argument of `HTTPBuilder.ExpectJSON`: a Go
string is treated as JSON text and parsed (represented by the tree it
parses to), any other value is normalized by a marshal/unmarshal round
trip. -/
inductive ExpectedArg where
  | raw (doc : Jsyn)
  | val (v : GoVal)
deriving Repr

/-- Helper for `splitDots`: prepend a character to the first piece. -/
def consChar (c : Char) : List String → List String
  | s :: rest => (String.mk (c :: s.data)) :: rest
  | [] => [String.mk [c]]

/-- `strings.Split(s, ".")` from the Go standard library, for the
single-character separator used by `ExpectDataPath`. -/
def splitDots (s : String) : List String :=
  s.data.foldr (fun c acc => if c = Char.ofNat 46 then "" :: acc else consChar c acc) [""]

/-! ## HTTP adapter (`e2e.go`) -/

/-- `Config` from `e2e.go`. -/
structure Config where
  BaseURL : String
  Timeout : Int
deriving Repr

/-- `TestSuite` from `e2e.go`: the stored configuration and the timeout of
the owned `http.Client` (the `testing.TB` reference is the ambient test
context modelled by `TestResult`). -/
structure TestSuite where
  config : Config
  clientTimeout : Int
deriving Repr

/-- `New` from `e2e.go`: a zero `Timeout` is replaced by the 30-second
default before the suite and its client are built. -/
def New (config : Config) : TestSuite :=
  let config := if config.Timeout = 0 then { config with Timeout := 30 * goSecond } else config
  { config := config, clientTimeout := config.Timeout }

/-- The captured `*http.Response`: status code, headers
(`map[string][]string`, listed in some iteration order), the not yet
consumed body stream, and — because textual JSON parsing is delegated to
`encoding/json` — the parse of the full body text (`none` when the body is
not valid JSON). -/
structure HTTPResponse where
  StatusCode : Nat
  Header : List (String × List String)
  bodyStream : String
  bodyDoc : Option Jsyn

/-- `HTTPBuilder` from `e2e.go`, after the configuration phase: `resp` is
`none` until `Execute` has run, `responseBody` is `none` until the body has
been read once (`readResponseBody` caches it there). -/
structure HTTPBuilder where
  suite : TestSuite
  method : String
  path : String
  requestURL : String
  requestHeaders : List (String × List String)
  requestBody : String
  responseBody : Option String
  resp : Option HTTPResponse

/-- `TestSuite.GET` from `e2e.go`: a fresh builder for a GET request (the
other method constructors differ only in the method string; the unused
fields hold their Go zero values). -/
def TestSuite.GET (s : TestSuite) (path : String) : HTTPBuilder :=
  { suite := s, method := "GET", path := path, requestURL := "", requestHeaders := [],
    requestBody := "", responseBody := none, resp := none }

/-- `TestSuite.POST` from `e2e.go`: a fresh builder for a POST request. -/
def TestSuite.POST (s : TestSuite) (path : String) : HTTPBuilder :=
  { suite := s, method := "POST", path := path, requestURL := "", requestHeaders := [],
    requestBody := "", responseBody := none, resp := none }

/-- `http.StatusText` from the Go standard library, for the status codes
used in this development; other codes map to `""` as unknown codes do in
the library. -/
def statusText : Nat → String
  | 200 => "OK"
  | 201 => "Created"
  | 204 => "No Content"
  | 400 => "Bad Request"
  | 401 => "Unauthorized"
  | 404 => "Not Found"
  | 500 => "Internal Server Error"
  | _ => ""

/-- The fatal message of every pre-execution assertion call. -/
def notExecutedMsg : String := "Request not executed. Call Execute() first."

/-- `maxBodySize` from `e2e.go`. -/
def maxBodySize : Nat := 1024

/-- `HTTPBuilder.truncateBody` from `e2e.go` (the receiver is unused in the
source): a body of at most `maxBodySize` bytes is returned unchanged, a
longer one is cut to its first `maxBodySize` bytes with the truncation
marker appended. -/
def HTTPBuilder.truncateBody (body : String) : String :=
  if body.length ≤ maxBodySize then body
  else String.mk (body.data.take maxBodySize) ++ "... (truncated)"

/-- `HTTPBuilder.readResponseBody` from `e2e.go`: returns the cached copy
when one exists; otherwise drains the response body stream once, caches
the bytes and returns them.  Go mutates the receiver; the updated builder
is returned alongside the bytes.  (The `resp = nil` case would dereference
a nil pointer in Go; every caller checks execution first.) -/
def HTTPBuilder.readResponseBody (h : HTTPBuilder) : String × HTTPBuilder :=
  match h.responseBody with
  | some cached => (cached, h)
  | none =>
    match h.resp with
    | some r =>
      (r.bodyStream,
        { h with responseBody := some r.bodyStream, resp := some { r with bodyStream := "" } })
    | none => ("", h)

/-- The body of `HTTPBuilder.writeHeaders` from `e2e.go`: each entry on its
own line, entries after the first indented to align, only the first value
of each header printed.  (Go iterates the header map in unspecified order;
the model iterates in list order, and the claims do not depend on it.) -/
def headerLines : Bool → List (String × List String) → String
  | _, [] => ""
  | first, (k, vs) :: rest =>
    (if first then "" else "          ") ++ k ++ ": " ++ vs.headD "" ++ "\n"
      ++ headerLines false rest

/-- `HTTPBuilder.writeHeaders` from `e2e.go`: nothing for an empty header
map, otherwise the `Headers:` label followed by the formatted entries. -/
def writeHeaders (headers : List (String × List String)) : String :=
  match headers with
  | [] => ""
  | _ => "Headers:  " ++ headerLines true headers

/-- `HTTPBuilder.formatError` from `e2e.go`: the full diagnostic block
(request line, URL, request headers and size-capped body, response status
line, response headers and size-capped body, and the failing assertion with
its Expected/Actual pair).  Reading the response body goes through
`readResponseBody` and is cached on the receiver, so the updated builder is
returned alongside the text. -/
def HTTPBuilder.formatError (h : HTTPBuilder) (assertionName expected actual : String) :
    String × HTTPBuilder :=
  match h.resp with
  | none => ("", h)
  | some r =>
    let read := h.readResponseBody
    let respBody := read.1
    let out :=
      "\n=== HTTP Request Failed ===\n"
      ++ "Request:  " ++ h.method ++ " " ++ h.path ++ "\n"
      ++ "URL:      " ++ h.requestURL ++ "\n"
      ++ writeHeaders h.requestHeaders
      ++ (if h.requestBody.length > 0
            then "Body:     " ++ HTTPBuilder.truncateBody h.requestBody ++ "\n" else "")
      ++ "\n"
      ++ "Response: " ++ toString r.StatusCode ++ " " ++ statusText r.StatusCode ++ "\n"
      ++ writeHeaders r.Header
      ++ (if respBody.length > 0
            then "Body:     " ++ HTTPBuilder.truncateBody respBody ++ "\n" else "")
      ++ "\n"
      ++ assertionName ++ ":\n"
      ++ "Expected: " ++ expected ++ "\n"
      ++ "Actual:   " ++ actual ++ "\n"
    (out, read.2)

/-- `HTTPBuilder.ExpectStatus` from `e2e.go`: fails fast before execution;
otherwise compares the captured status code and on mismatch halts with the
full diagnostic block (expected and actual rendered as `code text`). -/
def HTTPBuilder.ExpectStatus (h : HTTPBuilder) (statusCode : Nat) : TestResult HTTPBuilder :=
  match h.resp with
  | none => .fatal notExecutedMsg
  | some r =>
    if r.StatusCode ≠ statusCode then
      let expected := toString statusCode ++ (" " ++ statusText statusCode)
      let actual := toString r.StatusCode ++ (" " ++ statusText r.StatusCode)
      .fatal (h.formatError "Status code mismatch" expected actual).1
    else .ok h

/-- `HTTPBuilder.ExpectJSON` from `e2e.go`: fails fast before execution;
reads (and caches) the body, decodes it, normalizes the expected value — a
string argument by a parse, any other value by a marshal/unmarshal round
trip — and compares with `jsonEqual`, halting with the diagnostic block on
mismatch.  (`json.MarshalIndent` in the failure text is modelled by the
compact `marshal`; only which branch is taken matters to the claims.) -/
def HTTPBuilder.ExpectJSON (h : HTTPBuilder) (expected : ExpectedArg) : TestResult HTTPBuilder :=
  match h.resp with
  | none => .fatal notExecutedMsg
  | some r =>
    let read := h.readResponseBody
    let h2 := read.2
    match r.bodyDoc with
    | none => .fatal ("Failed to parse JSON response. Body: " ++ read.1)
    | some actualDoc =>
      let actual := unmarshal actualDoc
      match expected with
      | .raw doc =>
        let expectedParsed := unmarshal doc
        if jsonEqual expectedParsed actual then .ok h2
        else .fatal (h2.formatError "JSON response mismatch"
          (marshal expectedParsed) (marshal actual)).1
      | .val v =>
        let expectedNormalized := normalizeGo v
        if jsonEqual expectedNormalized actual then .ok h2
        else .fatal (h2.formatError "JSON response mismatch"
          (marshal expectedNormalized) (marshal actual)).1

/-- `http.Header.Get` from the Go standard library: first value of the
named entry, `""` when absent.  (MIME canonicalization of the key is not
re-modelled; the claims use none.) -/
def headerGet (headers : List (String × List String)) (key : String) : String :=
  match headers.lookup key with
  | some vs => vs.headD ""
  | none => ""

/-- `HTTPBuilder.ExpectHeader` from `e2e.go`: fails fast before execution;
otherwise compares one named response header by exact string equality. -/
def HTTPBuilder.ExpectHeader (h : HTTPBuilder) (key value : String) : TestResult HTTPBuilder :=
  match h.resp with
  | none => .fatal notExecutedMsg
  | some r =>
    let actualValue := headerGet r.Header key
    if actualValue ≠ value then
      .fatal (h.formatError ("Header mismatch (" ++ key ++ ")") value actualValue).1
    else .ok h

/-! ## GraphQL adapter -/

/-- `GraphQLConfig`. -/
structure GraphQLConfig where
  BaseURL : String
  Timeout : Int
deriving Repr

/-- `GraphQLSuite`: stored configuration and the timeout of the owned
`http.Client`. -/
structure GraphQLSuite where
  config : GraphQLConfig
  clientTimeout : Int
deriving Repr

/-- `NewGraphQL`: a zero `Timeout` is replaced by the 30-second default. -/
def NewGraphQL (config : GraphQLConfig) : GraphQLSuite :=
  let config := if config.Timeout = 0 then { config with Timeout := 30 * goSecond } else config
  { config := config, clientTimeout := config.Timeout }

/-- `GraphQLError`: the assertions read only the message; the optional
`locations` and `path` fields of the source are never read by any assertion
and are omitted. -/
structure GraphQLError where
  Message : String
deriving Repr

/-- `GraphQLResponse`: the `data` member is a `json.RawMessage`, decoded
only when an assertion needs it; it is carried here as the tree the raw
bytes parse to (`none` when absent, in which case decoding fails). -/
structure GraphQLResponse where
  Data : Option Jsyn
  Errors : List GraphQLError

/-- `GraphQLBuilder`: query text, variables (the source field is named
`variables`, a reserved word here), and — after `Execute` — the decoded
response envelope (`none` until executed). -/
structure GraphQLBuilder where
  suite : GraphQLSuite
  query : String
  vars : List (String × GoVal)
  response : Option GraphQLResponse

/-- `GraphQLSuite.Query`: a fresh builder for a query. -/
def GraphQLSuite.Query (s : GraphQLSuite) (query : String) : GraphQLBuilder :=
  { suite := s, query := query, vars := [], response := none }

/-- `GraphQLSuite.Mutation`: a fresh builder for a mutation. -/
def GraphQLSuite.Mutation (s : GraphQLSuite) (mutationText : String) : GraphQLBuilder :=
  { suite := s, query := mutationText, vars := [], response := none }

/-- `truncateString`: cut a string beyond `maxLen` and append an
ellipsis. -/
def truncateString (s : String) (maxLen : Nat) : String :=
  if s.length ≤ maxLen then s
  else String.mk (s.data.take maxLen) ++ "..."

/-- The error list rendered for the diagnostic block: one `  - message`
line per error. -/
def errorLines : List GraphQLError → String
  | [] => ""
  | e :: es => "  - " ++ e.Message ++ "\n" ++ errorLines es

/-- `strings.Join(msgs, ", ")` over the messages of an error list. -/
def joinMessages : List GraphQLError → String
  | [] => ""
  | [e] => e.Message
  | e :: f :: es => e.Message ++ ", " ++ joinMessages (f :: es)

/-- `GraphQLBuilder.formatError`: endpoint, truncated query, truncated
variables, the decoded error list, and the failing assertion with its
Expected/Actual pair. -/
def GraphQLBuilder.formatError (b : GraphQLBuilder) (assertionName expected actual : String) :
    String :=
  "\n=== GraphQL Request Failed ===\n"
  ++ "Endpoint: " ++ b.suite.config.BaseURL ++ "\n"
  ++ "Query:    " ++ truncateString b.query 100 ++ "\n"
  ++ (if b.vars.length > 0
        then "Vars:     " ++ truncateString (marshal (.obj b.vars)) 100 ++ "\n" else "")
  ++ (match b.response with
      | some resp =>
        if resp.Errors.length > 0 then "\nErrors:\n" ++ errorLines resp.Errors else ""
      | none => "")
  ++ "\n"
  ++ assertionName ++ ":\n"
  ++ "Expected: " ++ expected ++ "\n"
  ++ "Actual:   " ++ actual ++ "\n"

/-- `GraphQLBuilder.ExpectNoErrors`: fails fast before execution; passes
exactly when the decoded error list is empty, otherwise halts listing the
messages. -/
def GraphQLBuilder.ExpectNoErrors (b : GraphQLBuilder) : TestResult GraphQLBuilder :=
  match b.response with
  | none => .fatal notExecutedMsg
  | some resp =>
    if resp.Errors.length > 0 then
      .fatal (b.formatError "Expected no GraphQL errors" "no errors" (joinMessages resp.Errors))
    else .ok b

/-- `GraphQLBuilder.ExpectErrors`: fails fast before execution; passes
exactly when the decoded error list is non-empty. -/
def GraphQLBuilder.ExpectErrors (b : GraphQLBuilder) : TestResult GraphQLBuilder :=
  match b.response with
  | none => .fatal notExecutedMsg
  | some resp =>
    if resp.Errors.length = 0 then
      .fatal (b.formatError "Expected GraphQL errors" "at least one error" "no errors")
    else .ok b

/-- `GraphQLBuilder.ExpectErrorMessage`: fails fast before execution;
passes when some error in the decoded list carries exactly the expected
message (found semantics), otherwise halts listing all messages. -/
def GraphQLBuilder.ExpectErrorMessage (b : GraphQLBuilder) (msg : String) :
    TestResult GraphQLBuilder :=
  match b.response with
  | none => .fatal notExecutedMsg
  | some resp =>
    if resp.Errors.any (fun e => e.Message == msg) then .ok b
    else
      .fatal (b.formatError "Expected error message not found" msg (joinMessages resp.Errors))

/-- `GraphQLBuilder.ExpectData`: fails fast before execution; normalizes
the expected value by a marshal/unmarshal round trip, decodes the raw
`data` member, and compares with `jsonEqual`, halting with the diagnostic
block on mismatch.  (`json.MarshalIndent` in the failure text is modelled
by the compact `marshal`.) -/
def GraphQLBuilder.ExpectData (b : GraphQLBuilder) (expected : GoVal) :
    TestResult GraphQLBuilder :=
  match b.response with
  | none => .fatal notExecutedMsg
  | some resp =>
    match resp.Data with
    | none => .fatal "Failed to parse response data"
    | some d =>
      let expectedNorm := normalizeGo expected
      let actualNorm := unmarshal d
      if jsonEqual expectedNorm actualNorm then .ok b
      else
        .fatal (b.formatError "GraphQL data mismatch" (marshal expectedNorm) (marshal actualNorm))

/-- The navigation loop of `GraphQLBuilder.ExpectDataPath`: walk the
remaining dot-separated segments down from `current`; a segment applied to
a decoded object either steps to the named field or halts with the
path-not-found diagnostic; a segment applied to any other value halts with
the cannot-navigate failure. -/
def navigateLoop (b : GraphQLBuilder) (pathText : String) (expected : GoVal) :
    List String → GoVal → TestResult GoVal
  | [], current => .ok current
  | part :: rest, current =>
    match current with
    | .obj fields =>
      match fields.lookup part with
      | some next => navigateLoop b pathText expected rest next
      | none =>
        .fatal (b.formatError
          ("Path \"" ++ pathText ++ "\" not found at \"" ++ part ++ "\"")
          (marshal expected) "<missing>")
    | _ =>
      .fatal ("Cannot navigate path \"" ++ pathText ++ "\": unexpected type at \"" ++ part ++ "\"")

/-- `GraphQLBuilder.ExpectDataPath`: fails fast before execution; decodes
the raw `data` member into a `map[string]any` (halting when it is absent or
not an object), navigates the dot-separated path, and compares the leaf by
direct Go value equality — `GoVal.beq`, under which `int(42)` and
`float64(42)` differ — not by the `jsonEqual` comparison of the other
structural assertions.  (The `%v` renderings in the failure text are
modelled by `marshal`.) -/
def GraphQLBuilder.ExpectDataPath (b : GraphQLBuilder) (pathText : String) (expected : GoVal) :
    TestResult GraphQLBuilder :=
  match b.response with
  | none => .fatal notExecutedMsg
  | some resp =>
    match resp.Data with
    | none => .fatal "Failed to parse response data"
    | some d =>
      match unmarshal d with
      | .obj fields =>
        match navigateLoop b pathText expected (splitDots pathText) (.obj fields) with
        | .fatal msg => .fatal msg
        | .ok current =>
          if GoVal.beq current expected then .ok b
          else
            .fatal (b.formatError ("Data at path \"" ++ pathText ++ "\" mismatch")
              (marshal expected) (marshal current))
      | _ => .fatal "Failed to parse response data"

/-- Reference navigation, written from the words of the specification: a
dot-separated path is walked through the decoded data tree, `none` when an
intermediate segment is absent or the value at hand is not traversable,
otherwise the leaf value.  Stated separately from `navigateLoop` (which is
translated from the source) so that the two can be compared. -/
def pathLookup : GoVal → List String → Option GoVal
  | v, [] => some v
  | .obj fields, part :: rest =>
    match fields.lookup part with
    | some next => pathLookup next rest
    | none => none
  | _, _ :: _ => none

/-! ## gRPC adapter (`grpc.go`) -/

/-- `GRPCConfig`. -/
structure GRPCConfig where
  Target : String
  Timeout : Int
deriving Repr

/-- `GRPCSuite`: stored configuration (the dialed client connection is an
external resource and carries no state the assertions read). -/
structure GRPCSuite where
  config : GRPCConfig
deriving Repr

/-- `NewGRPC`: a zero `Timeout` is replaced by the 30-second default; the
connection dial and its registered cleanup are external side effects. -/
def NewGRPC (config : GRPCConfig) : GRPCSuite :=
  let config := if config.Timeout = 0 then { config with Timeout := 30 * goSecond } else config
  { config := config }

/-- A gRPC `*status.Status`: numeric code (`codes.Code`, a `uint32`) and
message. -/
structure GrpcStatus where
  code : Nat
  Message : String
deriving Repr

/-- `status.Convert` from the gRPC library: a `nil` error converts to the
`OK` status with an empty message; an error produced by a failed `Invoke`
converts to its own status.  `respErr` is modelled as the status of the
error, `none` for a `nil` error. -/
def statusConvert : Option GrpcStatus → GrpcStatus
  | none => { code := 0, Message := "" }
  | some st => st

/-- `codes.Code.String` from the gRPC library, for the codes used in this
development. -/
def codeString : Nat → String
  | 0 => "OK"
  | 1 => "Canceled"
  | 2 => "Unknown"
  | 3 => "InvalidArgument"
  | 5 => "NotFound"
  | _ => "Code()"

/-- `GRPCBuilder` from `grpc.go`: RPC name, request message (carried as its
`prototext` rendering, used only by the diagnostic block), metadata, and
the result of `Invoke` — a response-error slot and raw response bytes, both
zero-valued until `Execute` runs.  Note the builder records nowhere whether
`Execute` has run: a fresh builder and a successful empty-bodied call look
identical. -/
structure GRPCBuilder where
  suite : GRPCSuite
  method : String
  bodyText : Option String
  md : List (String × String)
  respErr : Option GrpcStatus
  respBody : String
deriving Repr

/-- `GRPCSuite.Call`: a fresh builder for one RPC (empty metadata, no
response state). -/
def GRPCSuite.Call (s : GRPCSuite) (method : String) : GRPCBuilder :=
  { suite := s, method := method, bodyText := none, md := [], respErr := none, respBody := "" }

/-- `GRPCBuilder.formatError` from `grpc.go`: method, target, prototext of
the request message when present, status and message of the response error
when present, and the failing assertion with its Expected/Actual pair. -/
def GRPCBuilder.formatError (b : GRPCBuilder) (assertionName expected actual : String) : String :=
  "\n=== gRPC Request Failed ===\n"
  ++ "Method:   " ++ b.method ++ "\n"
  ++ "Target:   " ++ b.suite.config.Target ++ "\n"
  ++ (match b.bodyText with
      | some t => "Request:  " ++ t ++ "\n"
      | none => "")
  ++ (match b.respErr with
      | some e =>
        "\nResponse: " ++ codeString (statusConvert (some e)).code ++ "\n"
          ++ "Message:  " ++ (statusConvert (some e)).Message ++ "\n"
      | none => "")
  ++ "\n"
  ++ assertionName ++ ":\n"
  ++ "Expected: " ++ expected ++ "\n"
  ++ "Actual:   " ++ actual ++ "\n"

/-- `GRPCBuilder.ExpectCode` from `grpc.go`: converts the stored response
error to a status — with no check that `Execute` ever ran, so a `nil`
error (including the fresh-builder state) converts to `OK` — and halts
only on a code mismatch. -/
def GRPCBuilder.ExpectCode (b : GRPCBuilder) (code : Nat) : TestResult GRPCBuilder :=
  let st := statusConvert b.respErr
  if st.code ≠ code then
    .fatal (b.formatError "gRPC status code mismatch" (codeString code) (codeString st.code))
  else .ok b

/-- `GRPCBuilder.ExpectErrorMessage` from `grpc.go`: exact-match comparison
of the converted status message — again with no check that `Execute` ever
ran (a `nil` error carries the empty message). -/
def GRPCBuilder.ExpectErrorMessage (b : GRPCBuilder) (msg : String) : TestResult GRPCBuilder :=
  let st := statusConvert b.respErr
  if st.Message ≠ msg then
    .fatal (b.formatError "gRPC error message mismatch" msg st.Message)
  else .ok b

/-- Executable substring search (used to settle `ContainsSub` on concrete
strings): `p` occurs in `l` when it is a prefix of some suffix. -/
def infixB (p : List Char) : List Char → Bool
  | [] => p.isEmpty
  | c :: rest => p.isPrefixOf (c :: rest) || infixB p rest

/-! ## Concrete fixtures

Builder states used as concrete inputs: the state a builder is left in by a
successful `Execute` against a test server, and fresh unexecuted
builders. -/

/-- A GraphQL builder after `Execute`, with the given decoded `data` member
and error list. -/
def gqlExecuted (d : Option Jsyn) (errs : List GraphQLError) : GraphQLBuilder :=
  { suite := NewGraphQL { BaseURL := "http://localhost:8080/graphql", Timeout := 0 },
    query := "query { users { id } }", vars := [],
    response := some { Data := d, Errors := errs } }

/-- An HTTP builder after `Execute`, with the given captured status, raw
body and body parse. -/
def httpExecuted (status : Nat) (bodyS : String) (bodyD : Option Jsyn) : HTTPBuilder :=
  { suite := New { BaseURL := "http://localhost:8080", Timeout := 0 },
    method := "GET", path := "/users/1",
    requestURL := "http://localhost:8080/users/1", requestHeaders := [], requestBody := "",
    responseBody := none,
    resp := some { StatusCode := status, Header := [], bodyStream := bodyS, bodyDoc := bodyD } }

/-- A GraphQL builder whose response data decodes to
`{"user": {"name": "Alice"}}`, with no errors. -/
def gqlAliceBuilder : GraphQLBuilder :=
  gqlExecuted (some (.obj [("user", .obj [("name", .str "Alice")])])) []

/-- A GraphQL builder whose response data is the JSON text
`{"count": 42.0}` (a floating numeric literal of integral value). -/
def gqlCount42Builder : GraphQLBuilder :=
  gqlExecuted (some (.obj [("count", .num 42)])) []

/-- An HTTP builder whose response body is the JSON text
`{"count": 42.0}`. -/
def httpCount42Builder : HTTPBuilder :=
  httpExecuted 200 "\x7b\"count\": 42.0\x7d" (some (.obj [("count", .num 42)]))

/-- A fresh gRPC builder on which `Execute` has not been called. -/
def grpcFresh : GRPCBuilder :=
  (NewGRPC { Target := "localhost:9090", Timeout := 0 }).Call "echo.EchoService/Echo"

/-! ## Helper lemmas -/

theorem containsSub_of_infixB {s pat : String} (h : infixB pat.data s.data = true) :
    ContainsSub s pat := by
  suffices hl : ∀ (l p : List Char), infixB p l = true → ∃ x y, l = x ++ (p ++ y) by
    obtain ⟨x, y, hxy⟩ := hl s.data pat.data h
    exact ⟨String.mk x, String.mk y, congrArg String.mk hxy⟩
  intro l
  induction l with
  | nil =>
    intro p h
    simp [infixB, List.isEmpty_iff] at h
    exact ⟨[], [], by simp [h]⟩
  | cons c rest ih =>
    intro p h
    simp only [infixB, Bool.or_eq_true] at h
    rcases h with h | h
    · obtain ⟨t, ht⟩ := List.isPrefixOf_iff_prefix.mp h
      exact ⟨[], t, by simp [← ht]⟩
    · obtain ⟨x, y, hxy⟩ := ih p h
      exact ⟨c :: x, y, by simp [hxy]⟩

theorem charsLtB_irrefl : ∀ a : List Char, charsLtB a a = false := by
  intro a
  induction a with
  | nil => rfl
  | cons c cs ih => simp [charsLtB, ih]

theorem charsLtB_asymm : ∀ {a b : List Char},
    charsLtB a b = true → charsLtB b a = true → False := by
  intro a
  induction a with
  | nil => intro b h1 h2; cases b <;> simp [charsLtB] at h1 h2
  | cons c cs ih =>
    intro b h1 h2
    cases b with
    | nil => simp [charsLtB] at h1
    | cons d ds =>
      simp only [charsLtB, Bool.or_eq_true, Bool.and_eq_true, decide_eq_true_eq,
        beq_iff_eq] at h1 h2
      rcases h1 with h1 | ⟨he1, h1⟩ <;> rcases h2 with h2 | ⟨he2, h2⟩
      · omega
      · omega
      · omega
      · exact ih h1 h2

theorem charsLtB_trans : ∀ {a b c : List Char},
    charsLtB a b = true → charsLtB b c = true → charsLtB a c = true := by
  intro a
  induction a with
  | nil =>
    intro b c h1 h2
    cases b with
    | nil => simp [charsLtB] at h1
    | cons d ds =>
      cases c with
      | nil => simp [charsLtB] at h2
      | cons e es => simp [charsLtB]
  | cons x xs ih =>
    intro b c h1 h2
    cases b with
    | nil => simp [charsLtB] at h1
    | cons d ds =>
      cases c with
      | nil => simp [charsLtB] at h2
      | cons e es =>
        simp only [charsLtB, Bool.or_eq_true, Bool.and_eq_true, decide_eq_true_eq,
          beq_iff_eq] at h1 h2 ⊢
        rcases h1 with h1 | ⟨he1, h1⟩ <;> rcases h2 with h2 | ⟨he2, h2⟩
        · omega
        · omega
        · omega
        · exact Or.inr ⟨by omega, ih h1 h2⟩

theorem charsLtB_connex : ∀ {a b : List Char},
    a ≠ b → charsLtB a b = true ∨ charsLtB b a = true := by
  intro a
  induction a with
  | nil =>
    intro b hne
    cases b with
    | nil => exact absurd rfl hne
    | cons d ds => exact Or.inl (by simp [charsLtB])
  | cons c cs ih =>
    intro b hne
    cases b with
    | nil => exact Or.inr (by simp [charsLtB])
    | cons d ds =>
      by_cases hcd : c.toNat = d.toNat
      · have hc : c = d := Char.eq_of_val_eq (UInt32.ext hcd)
        subst hc
        have hne2 : cs ≠ ds := fun h => hne (by rw [h])
        rcases ih hne2 with h | h
        · exact Or.inl (by simp [charsLtB, h])
        · exact Or.inr (by simp [charsLtB, h])
      · rcases Nat.lt_or_ge c.toNat d.toNat with h | h
        · exact Or.inl (by simp [charsLtB]; omega)
        · exact Or.inr (by simp [charsLtB]; omega)

theorem strLtB_irrefl (a : String) : strLtB a a = false := charsLtB_irrefl a.data

theorem strLtB_asymm {a b : String} (h1 : strLtB a b = true) : strLtB b a = false := by
  by_contra hc
  simp only [Bool.not_eq_false] at hc
  exact charsLtB_asymm h1 hc

theorem strLtB_trans {a b c : String} (h1 : strLtB a b = true) (h2 : strLtB b c = true) :
    strLtB a c = true := charsLtB_trans h1 h2

theorem strLtB_connex {a b : String} (hne : a ≠ b) :
    strLtB a b = true ∨ strLtB b a = true := by
  have : a.data ≠ b.data := fun h => hne (congrArg String.mk h)
  exact charsLtB_connex this

theorem strLtB_ne {a b : String} (h : strLtB a b = true) : a ≠ b := by
  intro he
  subst he
  rw [strLtB_irrefl] at h
  exact Bool.false_ne_true h

theorem insertField_comm {k₁ k₂ : String} (hne : k₁ ≠ k₂) (v₁ v₂ : GoVal) :
    ∀ acc, insertField k₂ v₂ (insertField k₁ v₁ acc)
      = insertField k₁ v₁ (insertField k₂ v₂ acc) := by
  intro acc
  induction acc with
  | nil =>
    rcases strLtB_connex hne with h | h
    · have h2 := strLtB_asymm h
      simp [insertField, h, h2, hne, hne.symm]
    · have h2 := strLtB_asymm h
      simp [insertField, h, h2, hne, hne.symm]
  | cons p rest ih =>
    obtain ⟨k, v⟩ := p
    by_cases ha : strLtB k₁ k = true
    · by_cases hb : strLtB k₂ k = true
      · rcases strLtB_connex hne with hc | hc
        · have hc2 := strLtB_asymm hc
          simp [insertField, ha, hb, hc, hc2, hne, hne.symm]
        · have hc2 := strLtB_asymm hc
          simp [insertField, ha, hb, hc, hc2, hne, hne.symm]
      · by_cases hb2 : k₂ = k
        · subst hb2
          have hc2 := strLtB_asymm ha
          simp [insertField, ha, hc2, hne, hne.symm, strLtB_irrefl]
        · have hkk2 : strLtB k k₂ = true := by
            rcases strLtB_connex (Ne.symm (fun h => hb2 h.symm)) with h | h
            · exact absurd h hb
            · exact h
          have hck : strLtB k₂ k₁ = false := by
            by_contra hcon
            simp only [Bool.not_eq_false] at hcon
            exact hb (strLtB_trans hcon ha)
          simp [insertField, ha, hb, hb2, hck, hne.symm]
    · by_cases ha2 : k₁ = k
      · subst ha2
        by_cases hb : strLtB k₂ k₁ = true
        · have hb2 := strLtB_asymm hb
          simp [insertField, hb, hb2, hne, hne.symm, strLtB_irrefl]
        · have hkk2 : strLtB k₁ k₂ = true := by
            rcases strLtB_connex hne with h | h
            · exact h
            · exact absurd h hb
          simp [insertField, hb, hkk2, hne, hne.symm, strLtB_irrefl]
      · have hka : strLtB k k₁ = true := by
          rcases strLtB_connex ha2 with h | h
          · exact absurd h ha
          · exact h
        by_cases hb : strLtB k₂ k = true
        · have hck : strLtB k₂ k₁ = true := strLtB_trans hb hka
          have hck2 := strLtB_asymm hck
          simp [insertField, ha, ha2, hb, hck, hck2, hne, hne.symm]
        · by_cases hb2 : k₂ = k
          · subst hb2
            have hck2 := strLtB_asymm hka
            simp [insertField, ha, ha2, hck2, hne, hne.symm, strLtB_irrefl]
          · have hkb : strLtB k k₂ = true := by
              rcases strLtB_connex (Ne.symm (fun h => hb2 h.symm)) with h | h
              · exact absurd h hb
              · exact h
            simp [insertField, ha, ha2, hb, hb2, ih]

theorem foldl_insertField_perm :
    ∀ {l₁ l₂ : List (String × GoVal)}, l₁.Perm l₂ → (l₁.map Prod.fst).Nodup →
      ∀ acc, l₁.foldl (fun acc p => insertField p.1 p.2 acc) acc
        = l₂.foldl (fun acc p => insertField p.1 p.2 acc) acc := by
  intro l₁ l₂ hp
  induction hp with
  | nil => intro _ _; rfl
  | cons x p ih =>
    intro hnd acc
    simp only [List.map_cons, List.nodup_cons] at hnd
    exact ih hnd.2 (insertField x.1 x.2 acc)
  | swap x y l =>
    intro hnd acc
    have hxy : y.1 ≠ x.1 := by
      simp only [List.map_cons, List.nodup_cons, List.mem_cons] at hnd
      exact fun h => hnd.1 (Or.inl h)
    simp only [List.foldl_cons]
    rw [insertField_comm hxy]
  | trans p₁ p₂ ih₁ ih₂ =>
    intro hnd acc
    rw [ih₁ hnd acc, ih₂ ((p₁.map Prod.fst).nodup hnd) acc]

theorem canonFields_perm {l₁ l₂ : List (String × GoVal)} (hp : l₁.Perm l₂)
    (hnd : (l₁.map Prod.fst).Nodup) : canonFields l₁ = canonFields l₂ :=
  foldl_insertField_perm hp hnd []

theorem unmarshalFields_eq_map (fs : List (String × Jsyn)) :
    unmarshalFields fs = fs.map (fun p => (p.1, unmarshal p.2)) := by
  induction fs with
  | nil => rfl
  | cons p fs ih => obtain ⟨k, v⟩ := p; simp [unmarshalFields, ih]

theorem unmarshalFields_keys (fs : List (String × Jsyn)) :
    (unmarshalFields fs).map Prod.fst = fs.map Prod.fst := by
  induction fs with
  | nil => rfl
  | cons p fs ih => obtain ⟨k, v⟩ := p; simp [unmarshalFields, ih]

theorem navigateLoop_ok_iff (b : GraphQLBuilder) (pathText : String) (expected : GoVal) :
    ∀ (parts : List String) (cur v : GoVal),
      navigateLoop b pathText expected parts cur = .ok v ↔ pathLookup cur parts = some v := by
  intro parts
  induction parts with
  | nil => intro cur v; simp [navigateLoop, pathLookup]
  | cons part rest ih =>
    intro cur v
    cases cur with
    | obj fields =>
      simp only [navigateLoop, pathLookup]
      cases fields.lookup part with
      | some next => exact ih next v
      | none => simp
    | null => simp [navigateLoop, pathLookup]
    | bool x => simp [navigateLoop, pathLookup]
    | int x => simp [navigateLoop, pathLookup]
    | float x => simp [navigateLoop, pathLookup]
    | str x => simp [navigateLoop, pathLookup]
    | arr x => simp [navigateLoop, pathLookup]

/-! ## Claims -/

/-- C10: for every suite constructor (HTTP `New`, gRPC `NewGRPC`, GraphQL
`NewGraphQL`), a zero (unspecified) `Timeout` in the configuration is
replaced by the 30-second default, and a non-zero `Timeout` is kept
unchanged. -/
theorem constructors_default_timeout (c1 : Config) (c2 : GRPCConfig) (c3 : GraphQLConfig) :
    ((c1.Timeout = 0 → (New c1).config.Timeout = 30 * goSecond) ∧
      (c1.Timeout ≠ 0 → (New c1).config.Timeout = c1.Timeout)) ∧
    ((c2.Timeout = 0 → (NewGRPC c2).config.Timeout = 30 * goSecond) ∧
      (c2.Timeout ≠ 0 → (NewGRPC c2).config.Timeout = c2.Timeout)) ∧
    ((c3.Timeout = 0 → (NewGraphQL c3).config.Timeout = 30 * goSecond) ∧
      (c3.Timeout ≠ 0 → (NewGraphQL c3).config.Timeout = c3.Timeout)) := by
  refine ⟨⟨?_, ?_⟩, ⟨?_, ?_⟩, ⟨?_, ?_⟩⟩ <;> intro h <;>
    simp [New, NewGRPC, NewGraphQL, h]

/-- Witness for `constructors_default_timeout` at concrete
configurations. -/
theorem constructors_default_timeout_witness :
    (New { BaseURL := "http://localhost:8080", Timeout := 0 }).config.Timeout = 30 * goSecond ∧
    (NewGRPC { Target := "localhost:9090", Timeout := 7 }).config.Timeout = 7 ∧
    (NewGraphQL { BaseURL := "http://localhost:8080", Timeout := 0 }).config.Timeout
      = 30 * goSecond := by
  have h := constructors_default_timeout
    { BaseURL := "http://localhost:8080", Timeout := 0 }
    { Target := "localhost:9090", Timeout := 7 }
    { BaseURL := "http://localhost:8080", Timeout := 0 }
  exact ⟨h.1.1 rfl, h.2.1.2 (by decide), h.2.2.1 rfl⟩

/-- C6: on an executed GraphQL builder whose response carries zero entries
in its error list, `ExpectNoErrors` passes (returning the builder) and
`ExpectErrors` halts the test with a failure. -/
theorem graphql_empty_errors (b : GraphQLBuilder) (resp : GraphQLResponse)
    (hb : b.response = some resp) (he : resp.Errors = []) :
    b.ExpectNoErrors = .ok b ∧ ∃ msg, b.ExpectErrors = .fatal msg := by
  constructor
  · simp [GraphQLBuilder.ExpectNoErrors, hb, he]
  · refine ⟨b.formatError "Expected GraphQL errors" "at least one error" "no errors", ?_⟩
    simp [GraphQLBuilder.ExpectErrors, hb, he]

/-- Witness for `graphql_empty_errors` on a concrete executed builder with
an empty error list. -/
theorem graphql_empty_errors_witness :
    (gqlExecuted none []).ExpectNoErrors = .ok (gqlExecuted none []) ∧
    ∃ msg, (gqlExecuted none []).ExpectErrors = .fatal msg :=
  graphql_empty_errors (gqlExecuted none []) { Data := none, Errors := [] } rfl rfl

/-- C5: the error-message assertion has membership (found) semantics for
GraphQL — it passes exactly when some error object in the decoded list
carries the expected message — and exact-match semantics for gRPC — it
passes exactly when the converted status message equals the expected
string. -/
theorem errorMessage_semantics (b : GraphQLBuilder) (resp : GraphQLResponse)
    (hb : b.response = some resp) (g : GRPCBuilder) (msg gmsg : String) :
    ((b.ExpectErrorMessage msg).isOk = true ↔ ∃ e ∈ resp.Errors, e.Message = msg) ∧
    ((g.ExpectErrorMessage gmsg).isOk = true ↔ (statusConvert g.respErr).Message = gmsg) := by
  constructor
  · have hok : (b.ExpectErrorMessage msg).isOk
        = resp.Errors.any (fun e => e.Message == msg) := by
      simp only [GraphQLBuilder.ExpectErrorMessage, hb]
      by_cases h : resp.Errors.any (fun e => e.Message == msg) = true
      · simp [h, TestResult.isOk]
      · simp only [Bool.not_eq_true] at h
        simp [h, TestResult.isOk]
    rw [hok, List.any_eq_true]
    simp
  · simp only [GRPCBuilder.ExpectErrorMessage]
    by_cases h : (statusConvert g.respErr).Message = gmsg
    · simp [h, TestResult.isOk]
    · simp [h, TestResult.isOk]

/-- Witness for `errorMessage_semantics`: a found GraphQL message passes,
and a gRPC builder whose converted status message equals the expectation
passes. -/
theorem errorMessage_semantics_witness :
    ((gqlExecuted none [{ Message := "user not found" }]).ExpectErrorMessage
        "user not found").isOk = true ∧
    (({ grpcFresh with respErr := some { code := 5, Message := "user 999 not found" } } :
        GRPCBuilder).ExpectErrorMessage "user 999 not found").isOk = true := by
  have h := errorMessage_semantics (gqlExecuted none [{ Message := "user not found" }])
    { Data := none, Errors := [{ Message := "user not found" }] } rfl
    { grpcFresh with respErr := some { code := 5, Message := "user 999 not found" } }
    "user not found" "user 999 not found"
  exact ⟨h.1.mpr ⟨{ Message := "user not found" }, by simp⟩, h.2.mpr rfl⟩

/-- C1 (amended): on the HTTP and GraphQL adapters, every assertion method
invoked before `Execute` halts the test with the distinct failure
`Request not executed. Call Execute() first.`, independent of which
assertion was invoked; the gRPC assertion methods perform no such check —
on an unexecuted builder `ExpectCode(OK)` and `ExpectErrorMessage("")`
pass. -/
theorem notExecuted_guard (h : HTTPBuilder) (hh : h.resp = none)
    (b : GraphQLBuilder) (hb : b.response = none)
    (g : GRPCSuite) (rpc : String) (sc : Nat) (exp : ExpectedArg) (v lv : GoVal)
    (key value emsg pth : String) :
    h.ExpectStatus sc = .fatal notExecutedMsg ∧
    h.ExpectJSON exp = .fatal notExecutedMsg ∧
    h.ExpectHeader key value = .fatal notExecutedMsg ∧
    b.ExpectNoErrors = .fatal notExecutedMsg ∧
    b.ExpectErrors = .fatal notExecutedMsg ∧
    b.ExpectErrorMessage emsg = .fatal notExecutedMsg ∧
    b.ExpectData v = .fatal notExecutedMsg ∧
    b.ExpectDataPath pth lv = .fatal notExecutedMsg ∧
    (g.Call rpc).ExpectCode 0 = .ok (g.Call rpc) ∧
    (g.Call rpc).ExpectErrorMessage "" = .ok (g.Call rpc) := by
  refine ⟨?_, ?_, ?_, ?_, ?_, ?_, ?_, ?_, ?_, ?_⟩ <;>
    simp [HTTPBuilder.ExpectStatus, HTTPBuilder.ExpectJSON, HTTPBuilder.ExpectHeader,
      GraphQLBuilder.ExpectNoErrors, GraphQLBuilder.ExpectErrors,
      GraphQLBuilder.ExpectErrorMessage, GraphQLBuilder.ExpectData,
      GraphQLBuilder.ExpectDataPath, GRPCBuilder.ExpectCode, GRPCBuilder.ExpectErrorMessage,
      GRPCSuite.Call, statusConvert, hh, hb]

/-- Witness for `notExecuted_guard` on fresh unexecuted builders. -/
theorem notExecuted_guard_witness :
    ((New { BaseURL := "http://localhost:8080", Timeout := 0 }).GET "/users/1" :
      HTTPBuilder).ExpectStatus 200 = .fatal notExecutedMsg ∧
    ((NewGraphQL { BaseURL := "http://g", Timeout := 0 }).Query "query { users { id } }"
      ).ExpectNoErrors = .fatal notExecutedMsg ∧
    grpcFresh.ExpectCode 0 = .ok grpcFresh := by
  have h := notExecuted_guard
    ((New { BaseURL := "http://localhost:8080", Timeout := 0 }).GET "/users/1") rfl
    ((NewGraphQL { BaseURL := "http://g", Timeout := 0 }).Query "query { users { id } }") rfl
    (NewGRPC { Target := "localhost:9090", Timeout := 0 }) "echo.EchoService/Echo"
    200 (.val .null) .null .null "k" "v" "m" "p"
  exact ⟨h.1, h.2.2.2.1, h.2.2.2.2.2.2.2.2.1⟩

/-- C1 counterexample: the claim fails on the gRPC adapter — `ExpectCode`
with the `OK` code invoked on a builder on which `Execute` has never been
called passes silently instead of halting with a not-executed failure. -/
theorem grpc_expectCode_before_execute_passes :
    grpcFresh.ExpectCode 0 = .ok grpcFresh := rfl

/-- C9: a body of at most `maxBodySize` (1024) bytes is rendered in full
and unchanged by the truncation step of the HTTP diagnostic block; a longer
body is cut to exactly its first 1024 bytes with the truncation marker
appended at the end. -/
theorem truncateBody_policy (body : String) :
    (body.length ≤ maxBodySize → HTTPBuilder.truncateBody body = body) ∧
    (maxBodySize < body.length →
      HTTPBuilder.truncateBody body
          = String.mk (body.data.take maxBodySize) ++ "... (truncated)" ∧
        (String.mk (body.data.take maxBodySize)).length = maxBodySize) := by
  constructor
  · intro hle
    simp [HTTPBuilder.truncateBody, hle]
  · intro hgt
    constructor
    · rw [HTTPBuilder.truncateBody, if_neg (by omega)]
    · have h1 : (String.mk (body.data.take maxBodySize)).length
          = (body.data.take maxBodySize).length := rfl
      have h2 : body.length = body.data.length := rfl
      rw [h1, List.length_take]
      rw [h2] at hgt
      omega

/-- C7: once an executed HTTP response body has been read, every later
read observes the same cached byte sequence: a read with the cache present
returns the cached copy and leaves the builder (and the underlying stream)
untouched; the first read returns the stream contents, stores them in the
cache, and is a fixed point — a repeated read returns the identical bytes
and identical state, and the diagnostic formatter leaves that state
unchanged as well, so the stream is drained at most once. -/
theorem readResponseBody_caching (h : HTTPBuilder) (r : HTTPResponse)
    (hr : h.resp = some r) (an ex ac : String) :
    (∀ c, h.responseBody = some c → h.readResponseBody = (c, h)) ∧
    (h.responseBody = none →
      h.readResponseBody.1 = r.bodyStream ∧
      h.readResponseBody.2.responseBody = some r.bodyStream ∧
      h.readResponseBody.2.readResponseBody = (r.bodyStream, h.readResponseBody.2) ∧
      (h.readResponseBody.2.formatError an ex ac).2 = h.readResponseBody.2) := by
  constructor
  · intro c hc
    simp [HTTPBuilder.readResponseBody, hc]
  · intro hn
    refine ⟨?_, ?_, ?_, ?_⟩ <;>
      simp [HTTPBuilder.readResponseBody, HTTPBuilder.formatError, hn, hr]

/-- Witness for `readResponseBody_caching` on a concrete executed
builder. -/
theorem readResponseBody_caching_witness :
    (httpExecuted 200 "\x7b\"ok\":true\x7d" none).readResponseBody.1 = "\x7b\"ok\":true\x7d" ∧
    (httpExecuted 200 "\x7b\"ok\":true\x7d" none).readResponseBody.2.readResponseBody
      = ("\x7b\"ok\":true\x7d",
         (httpExecuted 200 "\x7b\"ok\":true\x7d" none).readResponseBody.2) := by
  have h := readResponseBody_caching (httpExecuted 200 "\x7b\"ok\":true\x7d" none)
    { StatusCode := 200, Header := [], bodyStream := "\x7b\"ok\":true\x7d", bodyDoc := none }
    rfl "a" "e" "c"
  exact ⟨(h.2 rfl).1, (h.2 rfl).2.2.1⟩

/-- C4: on an executed GraphQL builder whose response data decodes to
`{"user": {"name": "Alice"}}`, `ExpectDataPath` at path `user.name` with
expected `"Alice"` passes, and at path `user.missing` halts the test with a
failure whose text names the path as not found, rather than treating the
missing segment as an empty value. -/
theorem expectDataPath_alice :
    (gqlAliceBuilder.ExpectDataPath "user.name" (.str "Alice") = .ok gqlAliceBuilder) ∧
    (∃ msg, gqlAliceBuilder.ExpectDataPath "user.missing" (.str "Alice") = .fatal msg ∧
      ContainsSub msg "not found") := by
  refine ⟨rfl, ⟨_, rfl, ?_⟩⟩
  exact containsSub_of_infixB (by decide)

/-- C3: `ExpectDataPath` on an executed builder whose data decodes to an
object passes exactly when walking the dot-separated path through the
decoded tree reaches a leaf that is equal to the expectation under direct
Go value equality (`GoVal.beq`); a path whose navigation fails — an absent
segment or a non-traversable value — halts the test immediately; and the
leaf comparison is direct rather than the normalized-numeric comparison
used by the other structural assertions: an `int 42` expectation fails
against a decoded `42.0` leaf even though the normalized comparison
(`jsonEqual` after the marshal/unmarshal round trip) accepts it. -/
theorem expectDataPath_direct_equality (b : GraphQLBuilder) (resp : GraphQLResponse)
    (d : Jsyn) (fields : List (String × GoVal)) (pathText : String) (expected : GoVal)
    (hb : b.response = some resp) (hd : resp.Data = some d)
    (hu : unmarshal d = .obj fields) :
    ((b.ExpectDataPath pathText expected).isOk = true ↔
      ∃ v, pathLookup (.obj fields) (splitDots pathText) = some v ∧
        GoVal.beq v expected = true) ∧
    (pathLookup (.obj fields) (splitDots pathText) = none →
      ∃ msg, b.ExpectDataPath pathText expected = .fatal msg) ∧
    ((gqlCount42Builder.ExpectDataPath "count" (.int 42)).isOk = false ∧
      jsonEqual (normalizeGo (.int 42)) (unmarshal (.num 42)) = true) := by
  have hiff := navigateLoop_ok_iff b pathText expected (splitDots pathText) (.obj fields)
  refine ⟨?_, ?_, rfl, rfl⟩
  · simp only [GraphQLBuilder.ExpectDataPath, hb, hd, hu]
    cases hnav : navigateLoop b pathText expected (splitDots pathText) (.obj fields) with
    | fatal m =>
      simp only [TestResult.isOk]
      constructor
      · intro hf
        exact absurd hf (by simp)
      · rintro ⟨v, hv, _⟩
        have h2 := (hiff v).mpr hv
        rw [hnav] at h2
        exact absurd h2 (by simp)
    | ok current =>
      have hcur : pathLookup (.obj fields) (splitDots pathText) = some current :=
        (hiff current).mp hnav
      by_cases hbeq : GoVal.beq current expected = true
      · simp [hbeq, TestResult.isOk, hcur]
      · simp only [Bool.not_eq_true] at hbeq
        simp [hbeq, TestResult.isOk, hcur]
  · intro hnone
    simp only [GraphQLBuilder.ExpectDataPath, hb, hd, hu]
    cases hnav : navigateLoop b pathText expected (splitDots pathText) (.obj fields) with
    | fatal m => exact ⟨m, by simp⟩
    | ok current =>
      have h2 := (hiff current).mp hnav
      rw [hnone] at h2
      exact absurd h2 (by simp)

/-- Witness for `expectDataPath_direct_equality` on the Alice fixture. -/
theorem expectDataPath_direct_equality_witness :
    ((gqlAliceBuilder.ExpectDataPath "user.name" (.str "Alice")).isOk = true ↔
      ∃ v, pathLookup (.obj [("user", .obj [("name", .str "Alice")])])
          (splitDots "user.name") = some v ∧ GoVal.beq v (.str "Alice") = true) :=
  (expectDataPath_direct_equality gqlAliceBuilder
    { Data := some (.obj [("user", .obj [("name", .str "Alice")])]), Errors := [] }
    (.obj [("user", .obj [("name", .str "Alice")])])
    [("user", .obj [("name", .str "Alice")])]
    "user.name" (.str "Alice") rfl rfl rfl).1

/-- C2: whenever the expected and the actual structured bodies decode to
the same normalized tree, the structural payload assertion passes — for
HTTP `ExpectJSON` with a structured expected value (normalized by a
marshal/unmarshal round trip), for HTTP `ExpectJSON` with a JSON-text
expected value (normalized by a decode pass), and for GraphQL
`ExpectData`; decoding an object is invariant under permutation of its
field order (for distinct keys), so key order never matters; and the
numeric exemplar holds: an expected map `{"count": 42}` (a Go `int`)
matches an actual body reading `{"count": 42.0}`. -/
theorem structural_assertion_normalized
    (h : HTTPBuilder) (r : HTTPResponse) (A : Jsyn)
    (hr : h.resp = some r) (hd : r.bodyDoc = some A)
    (b : GraphQLBuilder) (resp : GraphQLResponse) (B : Jsyn)
    (hb : b.response = some resp) (hbd : resp.Data = some B)
    (v w : GoVal) (E : Jsyn) (fs₁ fs₂ : List (String × Jsyn)) :
    (normalizeGo v = unmarshal A → (h.ExpectJSON (.val v)).isOk = true) ∧
    (unmarshal E = unmarshal A → (h.ExpectJSON (.raw E)).isOk = true) ∧
    (normalizeGo w = unmarshal B → (b.ExpectData w).isOk = true) ∧
    (fs₁.Perm fs₂ → (fs₁.map Prod.fst).Nodup →
      unmarshal (.obj fs₁) = unmarshal (.obj fs₂)) ∧
    ((httpCount42Builder.ExpectJSON (.val (.obj [("count", .int 42)]))).isOk = true) := by
  refine ⟨?_, ?_, ?_, ?_, rfl⟩
  · intro heq
    simp [HTTPBuilder.ExpectJSON, hr, hd, heq, jsonEqual, TestResult.isOk]
  · intro heq
    simp [HTTPBuilder.ExpectJSON, hr, hd, heq, jsonEqual, TestResult.isOk]
  · intro heq
    simp [GraphQLBuilder.ExpectData, hb, hbd, heq, jsonEqual, TestResult.isOk]
  · intro hp hnd
    have hp2 : (unmarshalFields fs₁).Perm (unmarshalFields fs₂) := by
      rw [unmarshalFields_eq_map, unmarshalFields_eq_map]
      exact hp.map _
    have hnd2 : ((unmarshalFields fs₁).map Prod.fst).Nodup := by
      rw [unmarshalFields_keys]
      exact hnd
    simp only [unmarshal]
    rw [canonFields_perm hp2 hnd2]

/-- Witness for `structural_assertion_normalized`: the 42 versus 42.0
exemplar on HTTP and GraphQL builders, plus a two-field object decoded
identically under swapped key order. -/
theorem structural_assertion_normalized_witness :
    (httpCount42Builder.ExpectJSON (.val (.obj [("count", .int 42)]))).isOk = true ∧
    (gqlCount42Builder.ExpectData (.obj [("count", .int 42)])).isOk = true ∧
    unmarshal (.obj [("b", .num 2), ("a", .num 1)])
      = unmarshal (.obj [("a", .num 1), ("b", .num 2)]) := by
  have h := structural_assertion_normalized httpCount42Builder
    { StatusCode := 200, Header := [], bodyStream := "\x7b\"count\": 42.0\x7d",
      bodyDoc := some (.obj [("count", .num 42)]) }
    (.obj [("count", .num 42)]) rfl rfl
    gqlCount42Builder
    { Data := some (.obj [("count", .num 42)]), Errors := [] }
    (.obj [("count", .num 42)]) rfl rfl
    (.obj [("count", .int 42)]) (.obj [("count", .int 42)]) (.obj [("count", .num 42)])
    [("b", .num 2), ("a", .num 1)] [("a", .num 1), ("b", .num 2)]
  exact ⟨h.1 rfl, h.2.2.1 rfl, h.2.2.2.1 (List.Perm.swap _ _ _) (by decide)⟩

theorem string_empty_append (s : String) : "" ++ s = s := rfl

theorem containsSub_appL {s pat : String} (x : String) (h : ContainsSub s pat) :
    ContainsSub (x ++ s) pat := by
  obtain ⟨a, b, hs⟩ := h
  exact ⟨x ++ a, b, by rw [hs]; exact (String.append_assoc x a _).symm⟩

theorem containsSub_two (p1 p2 t : String) : ContainsSub (p1 ++ (p2 ++ t)) (p1 ++ p2) := by
  refine ⟨"", t, ?_⟩
  rw [string_empty_append, String.append_assoc]

/-- C8: whenever an executed HTTP builder has captured status 400 and
`ExpectStatus 201` is asserted, the test halts and the produced diagnostic
block contains both literal substrings `Response: 400` and
`Expected: 201`. -/
theorem expectStatus_diagnostic (h : HTTPBuilder) (r : HTTPResponse)
    (hr : h.resp = some r) (h400 : r.StatusCode = 400) :
    ∃ msg, h.ExpectStatus 201 = .fatal msg ∧
      ContainsSub msg "Response: 400" ∧ ContainsSub msg "Expected: 201" := by
  refine ⟨(h.formatError "Status code mismatch"
      (toString (201 : Nat) ++ (" " ++ statusText 201))
      (toString r.StatusCode ++ (" " ++ statusText r.StatusCode))).1, ?_, ?_, ?_⟩
  · simp only [HTTPBuilder.ExpectStatus, hr]
    rw [if_pos (show r.StatusCode ≠ 201 by omega)]
  · simp only [HTTPBuilder.formatError, hr]
    rw [h400]
    rw [show ("Response: 400" : String) = "Response: " ++ toString (400 : Nat) from by decide]
    simp only [String.append_assoc]
    repeat
      first
      | exact containsSub_two _ _ _
      | apply containsSub_appL
  · simp only [HTTPBuilder.formatError, hr]
    rw [h400]
    rw [show ("Expected: 201" : String) = "Expected: " ++ toString (201 : Nat) from by decide]
    simp only [String.append_assoc]
    repeat
      first
      | exact containsSub_two _ _ _
      | apply containsSub_appL

/-- Witness for `expectStatus_diagnostic` on a concrete executed builder
with captured status 400. -/
theorem expectStatus_diagnostic_witness :
    ∃ msg, (httpExecuted 400 "" none).ExpectStatus 201 = .fatal msg ∧
      ContainsSub msg "Response: 400" ∧ ContainsSub msg "Expected: 201" :=
  expectStatus_diagnostic (httpExecuted 400 "" none)
    { StatusCode := 400, Header := [], bodyStream := "", bodyDoc := none } rfl rfl

set_option maxRecDepth 8000 in
/-- Witness for `truncateBody_policy`: a short body passes through
unchanged, a 1030-byte body is cut at 1024 bytes. -/
theorem truncateBody_policy_witness :
    HTTPBuilder.truncateBody "\x7b\"ok\":true\x7d" = "\x7b\"ok\":true\x7d" ∧
    (HTTPBuilder.truncateBody (String.mk (List.replicate 1030 'a'))
        = String.mk ((String.mk (List.replicate 1030 'a')).data.take maxBodySize)
          ++ "... (truncated)" ∧
      (String.mk ((String.mk (List.replicate 1030 'a')).data.take maxBodySize)).length
        = maxBodySize) := by
  constructor
  · exact (truncateBody_policy "\x7b\"ok\":true\x7d").1 (by decide)
  · exact (truncateBody_policy (String.mk (List.replicate 1030 'a'))).2 (by decide)

end E2E
